import Mathlib

/-
Verification development for the SimTK staged State store and the
Subsystem::Guts private representation.

The repository provides:
  * trunk/State/include/SimTKcommon/State.h — the public State handle class
    (declarations and documentation only; the implementing StateRep /
    State.cpp translation unit is not part of the sources), and
  * trunk/Simulation/src/SubsystemGutsRep.h — the complete inline
    implementation of Subsystem::Guts::GutsRep, including its copy
    constructor.

The GutsRep model below is translated directly from SubsystemGutsRep.h.
The State model is, of necessity, modelled from the specification (the
staged-storage contract: stage ladder, two allocation windows, global
vector assembly, invalidation cascade, generic value store), since the
State implementation file is missing; each such definition carries a
`Modelled from the spec:` doc comment naming what is missing.
-/

namespace SimbodyState

/-! ## The stage ladder

Stages form a fixed total order
Empty < Topology < Model < Instance < Time < Position < Velocity
< Dynamics < Acceleration < Report.  We embed a stage as its rank: a
natural number 0..9.  `Stage::Empty` is 0 and `Stage::Report` is 9. -/

def stageEmpty : Nat := 0
def stageTopology : Nat := 1
def stageModel : Nat := 2
def stageInstance : Nat := 3
def stageTime : Nat := 4
def stagePosition : Nat := 5
def stageVelocity : Nat := 6
def stageDynamics : Nat := 7
def stageAcceleration : Nat := 8
def stageReport : Nat := 9

/-- Modelled from the spec: the error taxonomy of §7 (the State
implementation that raises these is not among the sources). -/
inductive StateError where
  | OutOfOrderAdvance
  | AllocationAfterLock
  | StageNotRealized
  | GlobalStateNotAssembled
  | SubsystemsNotReady
  | InvalidHandle
deriving DecidableEq, Repr

/-- Modelled from the spec: a generic-value-store entry — an owned opaque
typed value plus the stage at which it is considered valid.  The store
never interprets the payload, so it is embedded as a bare natural number
token.  Matches the `DiscreteVariable` handle of State.h (stage + owned
AbstractValue); a cache entry has the same representation. -/
structure DiscreteVariable where
  stage : Nat
  value : Nat
deriving DecidableEq, Repr

/-- Modelled from the spec: per-subsystem bookkeeping (the SubsystemSlot of
§2): name, version, current realized stage, and the subsystem-local
allocation tables.  Continuous variables are recorded as the list of
allocated blocks, in allocation order, holding their initial values
(numeric contents are opaque to the store and embedded as integers);
error slots are cache-only so just their sizes are recorded. -/
structure PerSubsystemInfo where
  name : String
  version : String
  currentStage : Nat
  qs : List (List Int)
  us : List (List Int)
  zs : List (List Int)
  qerrs : List Nat
  uerrs : List Nat
  udoterrs : List Nat
  discretes : List DiscreteVariable
  caches : List DiscreteVariable
deriving DecidableEq, Repr

/-- A freshly registered subsystem: stage `Empty`, all tables empty. -/
def freshSubsystem (name version : String) : PerSubsystemInfo :=
  { name := name, version := version, currentStage := stageEmpty
    qs := [], us := [], zs := [], qerrs := [], uerrs := [], udoterrs := []
    discretes := [], caches := [] }

/-- Modelled from the spec: the State store — a list of subsystem slots
(ordered by registration, the index being the subsystem id) plus the
system-wide stage tracker. -/
structure SimState where
  subsystems : List PerSubsystemInfo
  systemStage : Nat
deriving DecidableEq, Repr

/-- The empty State created by the default constructor: no subsystems,
system stage `Empty`. -/
def initialState : SimState := { subsystems := [], systemStage := stageEmpty }

def getNSubsystems (st : SimState) : Nat := st.subsystems.length

def getSystemStage (st : SimState) : Nat := st.systemStage

def getSubsystemStage (st : SimState) (i : Nat) : Option Nat :=
  (st.subsystems[i]?).map (·.currentStage)

/-- Modelled from the spec: `registerSubsystem(name, version)` — append a
new subsystem slot at stage `Empty` and return its index (State.h
`addSubsystem`; precondition none). -/
def addSubsystem (name version : String) (st : SimState) : Nat × SimState :=
  (st.subsystems.length,
   { st with subsystems := st.subsystems ++ [freshSubsystem name version] })

/-- Modelled from the spec: `invalidateAll(stage)` — for every subsystem
currently at or above `stage`, and for the system if it is at or above
`stage`, back the stage tracker up to `stage − 1`; trackers below `stage`
and all allocated storage are untouched (State.h declares it; the
implementation is missing). -/
def invalidateAll (g : Nat) (st : SimState) : SimState :=
  { subsystems := st.subsystems.map fun p =>
      if g ≤ p.currentStage then { p with currentStage := g - 1 } else p
    systemStage := if g ≤ st.systemStage then g - 1 else st.systemStage }

/-- Modelled from the spec: `advanceSubsystemToStage(subsys, stage)` —
single-step advancement only, and never past the terminal stage `Report`;
otherwise the call fails with `OutOfOrderAdvance` and changes nothing. -/
def advanceSubsystemToStage (i g : Nat) (st : SimState) :
    Except StateError SimState :=
  match st.subsystems[i]? with
  | none => .error .InvalidHandle
  | some p =>
      if g = p.currentStage + 1 ∧ g ≤ stageReport then
        .ok { st with subsystems :=
                st.subsystems.set i { p with currentStage := g } }
      else .error .OutOfOrderAdvance

/-- Modelled from the spec: `advanceSystemToStage(stage)` — the same
single-step rule for the system-wide tracker, and additionally fails with
`SubsystemsNotReady` if any subsystem's stage is below the target. -/
def advanceSystemToStage (g : Nat) (st : SimState) :
    Except StateError SimState :=
  if g = st.systemStage + 1 ∧ g ≤ stageReport then
    if st.subsystems.any (fun p => p.currentStage < g) then
      .error .SubsystemsNotReady
    else .ok { st with systemStage := g }
  else .error .OutOfOrderAdvance

/-! ## Allocation

The two allocation windows of §4.2: window 1 ("construction") while the
subsystem is at `Empty`, where anything may be allocated; window 2
("modeling") while it is at `Topology`, where continuous variables, error
slots, discrete variables tagged above `Model` and cache entries tagged at
or above `Model` may be allocated.  Once the subsystem reaches `Model`
every allocation entry point fails with `AllocationAfterLock`. -/

/-- Modelled from the spec: `allocateQ(subsys, qInit)` — register a block
of q's for this subsystem, returning the subsystem-local index (the
implementation behind State.h is missing). -/
def allocateQ (i : Nat) (qInit : List Int) (st : SimState) :
    Except StateError (Nat × SimState) :=
  match st.subsystems[i]? with
  | none => .error .InvalidHandle
  | some p =>
      if stageModel ≤ p.currentStage then .error .AllocationAfterLock
      else .ok (p.qs.length,
        { st with subsystems := st.subsystems.set i { p with qs := p.qs ++ [qInit] } })

/-- Modelled from the spec: `allocateU(subsys, uInit)`. -/
def allocateU (i : Nat) (uInit : List Int) (st : SimState) :
    Except StateError (Nat × SimState) :=
  match st.subsystems[i]? with
  | none => .error .InvalidHandle
  | some p =>
      if stageModel ≤ p.currentStage then .error .AllocationAfterLock
      else .ok (p.us.length,
        { st with subsystems := st.subsystems.set i { p with us := p.us ++ [uInit] } })

/-- Modelled from the spec: `allocateZ(subsys, zInit)`. -/
def allocateZ (i : Nat) (zInit : List Int) (st : SimState) :
    Except StateError (Nat × SimState) :=
  match st.subsystems[i]? with
  | none => .error .InvalidHandle
  | some p =>
      if stageModel ≤ p.currentStage then .error .AllocationAfterLock
      else .ok (p.zs.length,
        { st with subsystems := st.subsystems.set i { p with zs := p.zs ++ [zInit] } })

/-- Modelled from the spec: `allocateQErr(subsys, nqerr)` — cache-only
error slot. -/
def allocateQErr (i : Nat) (nqerr : Nat) (st : SimState) :
    Except StateError (Nat × SimState) :=
  match st.subsystems[i]? with
  | none => .error .InvalidHandle
  | some p =>
      if stageModel ≤ p.currentStage then .error .AllocationAfterLock
      else .ok (p.qerrs.length,
        { st with subsystems := st.subsystems.set i { p with qerrs := p.qerrs ++ [nqerr] } })

/-- Modelled from the spec: `allocateUErr(subsys, nuerr)`. -/
def allocateUErr (i : Nat) (nuerr : Nat) (st : SimState) :
    Except StateError (Nat × SimState) :=
  match st.subsystems[i]? with
  | none => .error .InvalidHandle
  | some p =>
      if stageModel ≤ p.currentStage then .error .AllocationAfterLock
      else .ok (p.uerrs.length,
        { st with subsystems := st.subsystems.set i { p with uerrs := p.uerrs ++ [nuerr] } })

/-- Modelled from the spec: `allocateUDotErr(subsys, nudoterr)`. -/
def allocateUDotErr (i : Nat) (nudoterr : Nat) (st : SimState) :
    Except StateError (Nat × SimState) :=
  match st.subsystems[i]? with
  | none => .error .InvalidHandle
  | some p =>
      if stageModel ≤ p.currentStage then .error .AllocationAfterLock
      else .ok (p.udoterrs.length,
        { st with subsystems := st.subsystems.set i { p with udoterrs := p.udoterrs ++ [nudoterr] } })

/-- Modelled from the spec: `allocateDiscreteVariable(subsys, stage, v)` —
in window 2 only discrete variables tagged above `Model` may still be
allocated (a `Model`-tagged one had to be allocated during construction,
so its window has closed). -/
def allocateDiscreteVariable (i g v : Nat) (st : SimState) :
    Except StateError (Nat × SimState) :=
  match st.subsystems[i]? with
  | none => .error .InvalidHandle
  | some p =>
      if stageModel ≤ p.currentStage then .error .AllocationAfterLock
      else if p.currentStage = stageTopology ∧ g ≤ stageModel then
        .error .AllocationAfterLock
      else
        let p2 : PerSubsystemInfo := { p with discretes := p.discretes ++ [⟨g, v⟩] }
        .ok (p.discretes.length, { st with subsystems := st.subsystems.set i p2 })

/-- Modelled from the spec: `allocateCacheEntry(subsys, stage, v)` — in
window 2 only cache entries tagged at or above `Model` may be
allocated. -/
def allocateCacheEntry (i g v : Nat) (st : SimState) :
    Except StateError (Nat × SimState) :=
  match st.subsystems[i]? with
  | none => .error .InvalidHandle
  | some p =>
      if stageModel ≤ p.currentStage then .error .AllocationAfterLock
      else if p.currentStage = stageTopology ∧ g < stageModel then
        .error .AllocationAfterLock
      else
        let p2 : PerSubsystemInfo := { p with caches := p.caches ++ [⟨g, v⟩] }
        .ok (p.caches.length, { st with subsystems := st.subsystems.set i p2 })

/-! ## The generic value store: discrete variables and cache entries -/

/-- Modelled from the spec: `getDiscreteVariable(subsys, index)` — reading
succeeds iff the holding subsystem's current stage has reached the
variable's stage tag; else fails with `StageNotRealized` (out-of-range
handles fail with `InvalidHandle`). -/
def getDiscreteVariable (i idx : Nat) (st : SimState) : Except StateError Nat :=
  match st.subsystems[i]? with
  | none => .error .InvalidHandle
  | some p =>
      match p.discretes[idx]? with
      | none => .error .InvalidHandle
      | some dv =>
          if dv.stage ≤ p.currentStage then .ok dv.value
          else .error .StageNotRealized

/-- Write a new payload into discrete-variable slot `idx` of subsystem `i`,
touching nothing else.  Helper for `updDiscreteVariable`. -/
def setDiscreteValue (i idx v : Nat) (st : SimState) : SimState :=
  match st.subsystems[i]? with
  | none => st
  | some p =>
      match p.discretes[idx]? with
      | none => st
      | some dv =>
          let p2 : PerSubsystemInfo :=
            { p with discretes := p.discretes.set idx { dv with value := v } }
          { st with subsystems := st.subsystems.set i p2 }

/-- Modelled from the spec: `updDiscreteVariable(subsys, index)` — mutable
access succeeds at any current stage at or above the variable's stage tag,
and, because the value is changing, triggers `invalidateAll(tag)` as a side
effect. -/
def updDiscreteVariable (i idx v : Nat) (st : SimState) :
    Except StateError SimState :=
  match st.subsystems[i]? with
  | none => .error .InvalidHandle
  | some p =>
      match p.discretes[idx]? with
      | none => .error .InvalidHandle
      | some dv =>
          if dv.stage ≤ p.currentStage then
            .ok (invalidateAll dv.stage (setDiscreteValue i idx v st))
          else .error .StageNotRealized

/-- Modelled from the spec: `getCacheEntry(subsys, index)` — reading a
cache entry succeeds iff the holding subsystem's current stage has reached
the entry's owning stage; else fails with `StageNotRealized`. -/
def getCacheEntry (i idx : Nat) (st : SimState) : Except StateError Nat :=
  match st.subsystems[i]? with
  | none => .error .InvalidHandle
  | some p =>
      match p.caches[idx]? with
      | none => .error .InvalidHandle
      | some ce =>
          if ce.stage ≤ p.currentStage then .ok ce.value
          else .error .StageNotRealized

/-- Modelled from the spec: `updCacheEntry(subsys, index)` — writable once
the holding subsystem's current stage is at or above (owning stage − 1);
filling a cache value is not a state change, so no stage tracker moves and
no invalidation occurs. -/
def updCacheEntry (i idx v : Nat) (st : SimState) :
    Except StateError SimState :=
  match st.subsystems[i]? with
  | none => .error .InvalidHandle
  | some p =>
      match p.caches[idx]? with
      | none => .error .InvalidHandle
      | some ce =>
          if ce.stage - 1 ≤ p.currentStage then
            let p2 : PerSubsystemInfo :=
              { p with caches := p.caches.set idx { ce with value := v } }
            .ok { st with subsystems := st.subsystems.set i p2 }
          else .error .StageNotRealized

/-! ## Global vector assembly

Modelled from the spec §4.3: walking the subsystems in registration order,
each subsystem's q's are contiguous in the global Q array, similarly the
u's and z's, and Y = [Q | U | Z]. -/

/-- All q's of one subsystem, in allocation order (contiguous by §4.3). -/
def subsystemQ (p : PerSubsystemInfo) : List Int := p.qs.flatten

/-- All u's of one subsystem, in allocation order. -/
def subsystemU (p : PerSubsystemInfo) : List Int := p.us.flatten

/-- All z's of one subsystem, in allocation order. -/
def subsystemZ (p : PerSubsystemInfo) : List Int := p.zs.flatten

/-- Modelled from the spec: the global Q array — each subsystem's block
appended in registration order. -/
def globalQ (st : SimState) : List Int := (st.subsystems.map subsystemQ).flatten

/-- Modelled from the spec: the global U array. -/
def globalU (st : SimState) : List Int := (st.subsystems.map subsystemU).flatten

/-- Modelled from the spec: the global Z array. -/
def globalZ (st : SimState) : List Int := (st.subsystems.map subsystemZ).flatten

/-- Modelled from the spec: `getY()` — the contiguous concatenation
Y = [Q | U | Z]. -/
def getY (st : SimState) : List Int := globalQ st ++ globalU st ++ globalZ st

/-- Modelled from the spec: `getNQ()`. -/
def getNQ (st : SimState) : Nat := (globalQ st).length

/-- Modelled from the spec: `getNU()`. -/
def getNU (st : SimState) : Nat := (globalU st).length

/-- Modelled from the spec: `getNZ()`. -/
def getNZ (st : SimState) : Nat := (globalZ st).length

/-- Modelled from the spec: `getNY()` = nq + nu + nz. -/
def getNY (st : SimState) : Nat := (getY st).length

/-- Modelled from the spec: `getQStart(subsys)` — the global offset of
subsystem `i`'s block within the global Q array: the summed lengths of
the blocks of all earlier-registered subsystems. -/
def getQStart (st : SimState) (i : Nat) : Nat :=
  (((st.subsystems.take i).map subsystemQ).map List.length).sum

/-- Modelled from the spec: `getNQ(subsys)` — the length of subsystem
`i`'s block of the global Q array. -/
def getSubNQ (st : SimState) (i : Nat) : Nat :=
  match st.subsystems[i]? with
  | some p => (subsystemQ p).length
  | none => 0

/-- Modelled from the spec: `getUStart(subsys)` — the global offset of
subsystem `i`'s block within the global U array. -/
def getUStart (st : SimState) (i : Nat) : Nat :=
  (((st.subsystems.take i).map subsystemU).map List.length).sum

/-- Modelled from the spec: `getNU(subsys)`. -/
def getSubNU (st : SimState) (i : Nat) : Nat :=
  match st.subsystems[i]? with
  | some p => (subsystemU p).length
  | none => 0

/-- Modelled from the spec: `getZStart(subsys)` — the global offset of
subsystem `i`'s block within the global Z array. -/
def getZStart (st : SimState) (i : Nat) : Nat :=
  (((st.subsystems.take i).map subsystemZ).map List.length).sum

/-- Modelled from the spec: `getNZ(subsys)`. -/
def getSubNZ (st : SimState) (i : Nat) : Nat :=
  match st.subsystems[i]? with
  | some p => (subsystemZ p).length
  | none => 0

/-! ## Mutable access to the global Y vector -/

/-- Split a flat list into consecutive blocks of the given lengths. -/
def reshape : List Nat → List Int → List (List Int)
  | [], _ => []
  | n :: ns, xs => xs.take n :: reshape ns (xs.drop n)

/-- Re-slice new global Q/U/Z contents for one subsystem into its original
block structure. -/
def setSubsystemY (p : PerSubsystemInfo) (newQ newU newZ : List Int) :
    PerSubsystemInfo :=
  { p with qs := reshape (p.qs.map List.length) newQ
           us := reshape (p.us.map List.length) newU
           zs := reshape (p.zs.map List.length) newZ }

/-- Distribute new global Q/U/Z contents back over the subsystems, each
taking its own contiguous block in registration order. -/
def distributeY : List PerSubsystemInfo → List Int → List Int → List Int →
    List PerSubsystemInfo
  | [], _, _, _ => []
  | p :: ps, q, u, z =>
      setSubsystemY p (q.take (subsystemQ p).length)
          (u.take (subsystemU p).length) (z.take (subsystemZ p).length)
        :: distributeY ps (q.drop (subsystemQ p).length)
            (u.drop (subsystemU p).length) (z.drop (subsystemZ p).length)

/-- Overwrite the assembled Y = [Q | U | Z] with new contents, leaving
every stage tracker and every other table alone.  Helper for `updY`. -/
def setY (newY : List Int) (st : SimState) : SimState :=
  let q := newY.take (getNQ st)
  let uz := newY.drop (getNQ st)
  let subs := distributeY st.subsystems q (uz.take (getNU st)) (uz.drop (getNU st))
  { st with subsystems := subs }

/-- Modelled from the spec: `updY()` — mutable access to the assembled Y,
allowed once the system stage has reached `Model` (before assembly the
global vector does not exist), and, since the continuous variables are
changing, backing the stage trackers up via `invalidateAll(Position)` as
State.h documents (`Back up to Stage::Position-1`). -/
def updY (newY : List Int) (st : SimState) : Except StateError SimState :=
  if stageModel ≤ st.systemStage then
    .ok (invalidateAll stagePosition (setY newY st))
  else .error .GlobalStateNotAssembled

/-! ## Observation helpers for the theorems -/

/-- Every stage tracker of the store: the system's and each subsystem's. -/
def stagesOf (st : SimState) : Nat × List Nat :=
  (st.systemStage, st.subsystems.map (·.currentStage))

/-- Everything a subsystem slot holds apart from its stage tracker: the
identity strings and all allocation tables. -/
def storageOf (p : PerSubsystemInfo) :
    String × String × List (List Int) × List (List Int) × List (List Int) ×
      List Nat × List Nat × List Nat × List DiscreteVariable × List DiscreteVariable :=
  (p.name, p.version, p.qs, p.us, p.zs, p.qerrs, p.uerrs, p.udoterrs,
   p.discretes, p.caches)

/-- The invariant of §3/§8: the system-wide stage never exceeds the
minimum of the subsystem stages. -/
def StageInvariant (st : SimState) : Prop :=
  ∀ p ∈ st.subsystems, st.systemStage ≤ p.currentStage

/-- One successful application of any store operation other than
subsystem registration and bare `invalidateAll`. -/
inductive OpStep : SimState → SimState → Prop where
  | allocQ (i : Nat) (q : List Int) (st st2 : SimState) (r : Nat) :
      allocateQ i q st = .ok (r, st2) → OpStep st st2
  | allocU (i : Nat) (u : List Int) (st st2 : SimState) (r : Nat) :
      allocateU i u st = .ok (r, st2) → OpStep st st2
  | allocZ (i : Nat) (z : List Int) (st st2 : SimState) (r : Nat) :
      allocateZ i z st = .ok (r, st2) → OpStep st st2
  | allocQErr (i n : Nat) (st st2 : SimState) (r : Nat) :
      allocateQErr i n st = .ok (r, st2) → OpStep st st2
  | allocUErr (i n : Nat) (st st2 : SimState) (r : Nat) :
      allocateUErr i n st = .ok (r, st2) → OpStep st st2
  | allocUDotErr (i n : Nat) (st st2 : SimState) (r : Nat) :
      allocateUDotErr i n st = .ok (r, st2) → OpStep st st2
  | allocDV (i g v : Nat) (st st2 : SimState) (r : Nat) :
      allocateDiscreteVariable i g v st = .ok (r, st2) → OpStep st st2
  | allocCE (i g v : Nat) (st st2 : SimState) (r : Nat) :
      allocateCacheEntry i g v st = .ok (r, st2) → OpStep st st2
  | advanceSub (i g : Nat) (st st2 : SimState) :
      advanceSubsystemToStage i g st = .ok st2 → OpStep st st2
  | advanceSys (g : Nat) (st st2 : SimState) :
      advanceSystemToStage g st = .ok st2 → OpStep st st2
  | updDV (i idx v : Nat) (st st2 : SimState) :
      updDiscreteVariable i idx v st = .ok st2 → OpStep st st2
  | updCE (i idx v : Nat) (st st2 : SimState) :
      updCacheEntry i idx v st = .ok st2 → OpStep st st2
  | updYVec (newY : List Int) (st st2 : SimState) :
      updY newY st = .ok st2 → OpStep st st2

/-- One step as the specification defines the operations: any successful
operation, a bare invalidation, or a registration (whose specified
precondition is "none"). -/
def SpecStep (st st2 : SimState) : Prop :=
  OpStep st st2 ∨ (∃ g, st2 = invalidateAll g st) ∨
    ∃ n v, st2 = (addSubsystem n v st).2

/-- One step in which registration is only permitted while the system
stage is still `Empty`. -/
def GuardedStep (st st2 : SimState) : Prop :=
  OpStep st st2 ∨ (∃ g, st2 = invalidateAll g st) ∨
    (st.systemStage = stageEmpty ∧ ∃ n v, st2 = (addSubsystem n v st).2)

/-- The states reachable from the empty store by the operations exactly as
the specification gives them. -/
inductive Reachable : SimState → Prop where
  | init : Reachable initialState
  | step {st st2 : SimState} : Reachable st → SpecStep st st2 → Reachable st2

/-- The states reachable when every registration happens while the system
stage is still `Empty`. -/
inductive ReachableG : SimState → Prop where
  | init : ReachableG initialState
  | step {st st2 : SimState} : ReachableG st → GuardedStep st st2 → ReachableG st2

/-! ## The concrete scenario of §8

Register two subsystems; subsystem 0 allocates a Q of length 3, subsystem
1 a Q of length 2; advance both subsystems and then the system through
Topology and Model. -/

/-- The §8 scenario, run from the empty store. -/
def scenarioState : Except StateError SimState :=
  let st0 := initialState
  let r0 := addSubsystem "subsysA" "1.0" st0
  let r1 := addSubsystem "subsysB" "1.0" r0.2
  do
    let a0 ← allocateQ r0.1 [10, 20, 30] r1.2
    let a1 ← allocateQ r1.1 [40, 50] a0.2
    let s1 ← advanceSubsystemToStage r0.1 stageTopology a1.2
    let s2 ← advanceSubsystemToStage r1.1 stageTopology s1
    let s3 ← advanceSubsystemToStage r0.1 stageModel s2
    let s4 ← advanceSubsystemToStage r1.1 stageModel s3
    let s5 ← advanceSystemToStage stageTopology s4
    advanceSystemToStage stageModel s5

/-- A small concrete store used by the witnesses: two subsystems with
stage trackers at `Dynamics` and `Topology`, system tracker at
`Topology`. -/
def witnessInvState : SimState :=
  { subsystems := [{ freshSubsystem "wa" "1" with currentStage := stageDynamics },
                   { freshSubsystem "wb" "1" with currentStage := stageTopology }]
    systemStage := stageTopology }

/-- A one-subsystem store used by the generic-value-store witnesses: the
subsystem is realized through `Position` and owns one discrete variable
tagged `Instance` and one cache entry tagged `Velocity`. -/
def witnessGVState : SimState :=
  { subsystems := [{ freshSubsystem "wc" "1" with
                     currentStage := stagePosition
                     discretes := [⟨stageInstance, 17⟩]
                     caches := [⟨stageVelocity, 23⟩] }]
    systemStage := stageModel }

/-- The store obtained from the empty store by advancing the system to
`Topology` (vacuously permitted: there is no subsystem below `Topology`)
and then registering a subsystem.  Registration has no precondition in the
specification, so this store is reachable — and it violates the stage
invariant, since the fresh subsystem starts at `Empty` below the already
advanced system tracker. -/
def lateRegistrationState : SimState :=
  (addSubsystem "late" "1.0" { subsystems := [], systemStage := stageTopology }).2

/-- A one-subsystem store still at `Empty` everywhere. -/
def witnessFreshState : SimState := (addSubsystem "wf" "1" initialState).2

/-- The previous store after allocating one q of length 1 in subsystem 0. -/
def witnessAllocState : SimState :=
  { subsystems := [{ freshSubsystem "wf" "1" with qs := [[5]] }]
    systemStage := stageEmpty }

/-- A two-subsystem store with allocated continuous blocks, used by the
assembly witnesses. -/
def witnessAsmState : SimState :=
  { subsystems := [{ freshSubsystem "wq" "1" with
                     currentStage := stageModel
                     qs := [[10, 20], [30]] },
                   { freshSubsystem "wr" "1" with
                     currentStage := stageModel
                     qs := [[40]]
                     us := [[50, 60]] }]
    systemStage := stageModel }

end SimbodyState

namespace SimbodySubsystem

/-! ## Subsystem::Guts::GutsRep, from trunk/Simulation/src/SubsystemGutsRep.h

This part of the repository is present in full, so the model below is a
direct translation of the C++ class.  Pointers are embedded as `Option Nat`
(a numeric object identity, `none` for null), and the sixteen client-side
function-pointer slots as bare numeric addresses (0 for null, as
`clearAllFunctionPointers` writes). -/

/-- `SubsystemId` is a small integer index; `InvalidSubsystemId` is the
invalid sentinel value (-1). -/
def InvalidSubsystemId : Int := -1

/-- The private representation of Subsystem::Guts, field for field from
SubsystemGutsRep.h. -/
structure GutsRep where
  subsystemName : String
  subsystemVersion : String
  mySystem : Option Nat
  mySubsystemId : Int
  myHandle : Option Nat
  destructp : Nat
  clonep : Nat
  realizeTopologyp : Nat
  realizeModelp : Nat
  realizeInstancep : Nat
  realizeTimep : Nat
  realizePositionp : Nat
  realizeVelocityp : Nat
  realizeDynamicsp : Nat
  realizeAccelerationp : Nat
  realizeReportp : Nat
  calcQUnitWeightsp : Nat
  calcUUnitWeightsp : Nat
  calcZUnitWeightsp : Nat
  calcQErrUnitTolerancesp : Nat
  calcUErrUnitTolerancesp : Nat
  calcDecorativeGeometryAndAppendp : Nat
  subsystemTopologyRealized : Bool
deriving DecidableEq, Repr

/-- `GutsRep::GutsRep(const GutsRep& src)` — the copy constructor: copy the
name and version, null out system membership (`mySystem = 0`,
`mySubsystemId = InvalidSubsystemId`, `myHandle = 0`), mark the topology
cache not realized, and copy all function pointers from the source. -/
def GutsRep.copy (src : GutsRep) : GutsRep :=
  { subsystemName := src.subsystemName
    subsystemVersion := src.subsystemVersion
    mySystem := none
    mySubsystemId := InvalidSubsystemId
    myHandle := none
    destructp := src.destructp
    clonep := src.clonep
    realizeTopologyp := src.realizeTopologyp
    realizeModelp := src.realizeModelp
    realizeInstancep := src.realizeInstancep
    realizeTimep := src.realizeTimep
    realizePositionp := src.realizePositionp
    realizeVelocityp := src.realizeVelocityp
    realizeDynamicsp := src.realizeDynamicsp
    realizeAccelerationp := src.realizeAccelerationp
    realizeReportp := src.realizeReportp
    calcQUnitWeightsp := src.calcQUnitWeightsp
    calcUUnitWeightsp := src.calcUUnitWeightsp
    calcZUnitWeightsp := src.calcZUnitWeightsp
    calcQErrUnitTolerancesp := src.calcQErrUnitTolerancesp
    calcUErrUnitTolerancesp := src.calcUErrUnitTolerancesp
    calcDecorativeGeometryAndAppendp := src.calcDecorativeGeometryAndAppendp
    subsystemTopologyRealized := false }

/-- `isInSystem()` — membership test: the system pointer is non-null. -/
def GutsRep.isInSystem (r : GutsRep) : Bool := r.mySystem.isSome

end SimbodySubsystem

namespace SimbodyState

/-! ## Theorems

First some shared helper lemmas about how the operations act on the stage
trackers. -/

/-- Setting slot `i` to an element with the same image under `f` leaves
the mapped list alone. -/
theorem map_set_eq_map {α β : Type _} (f : α → β) :
    ∀ (l : List α) (i : Nat) (a : α), (∀ p, l[i]? = some p → f a = f p) →
      (l.set i a).map f = l.map f
  | [], _, _, _ => rfl
  | x :: xs, 0, a, h => by
      have hx := h x (by simp)
      simp [hx]
  | x :: xs, i + 1, a, h => by
      simp only [List.set_cons_succ, List.map_cons]
      rw [map_set_eq_map f xs i a (fun p hp => h p (by simpa using hp))]

/-- Replacing subsystem slot `i` by a slot with the same stage tracker
leaves every stage tracker of the store alone. -/
theorem stagesOf_set (st : SimState) (i : Nat) (p p2 : PerSubsystemInfo)
    (hp : st.subsystems[i]? = some p) (hs : p2.currentStage = p.currentStage) :
    stagesOf { st with subsystems := st.subsystems.set i p2 } = stagesOf st := by
  simp only [stagesOf, Prod.mk.injEq]
  exact ⟨trivial, map_set_eq_map _ _ i p2 (fun q hq => by rw [hp] at hq; cases hq; exact hs)⟩

/-- C1: for every stage `S` (with `S − 1` on the ladder, i.e. `S ≥ 1`),
`invalidateAll(S)` backs every stage tracker currently at or above `S` —
the system's and each subsystem's — to exactly `S − 1`, never lower and
never higher, leaves every tracker currently below `S` unchanged, and
deletes no allocated storage (every subsystem's tables are untouched). -/
theorem invalidateAll_backs_up_exactly (st : SimState) (g : Nat) (hg : 1 ≤ g) :
    ((g ≤ getSystemStage st → getSystemStage (invalidateAll g st) = g - 1)
      ∧ (getSystemStage st < g → getSystemStage (invalidateAll g st) = getSystemStage st))
    ∧ (∀ i s, getSubsystemStage st i = some s →
        (g ≤ s → getSubsystemStage (invalidateAll g st) i = some (g - 1))
          ∧ (s < g → getSubsystemStage (invalidateAll g st) i = some s))
    ∧ (invalidateAll g st).subsystems.map storageOf = st.subsystems.map storageOf := by
  refine ⟨⟨?_, ?_⟩, ?_, ?_⟩
  · intro h
    simp only [getSystemStage] at h ⊢
    simp only [invalidateAll]
    rw [if_pos h]
  · intro h
    simp only [getSystemStage] at h ⊢
    simp only [invalidateAll]
    rw [if_neg (by omega)]
  · intro i s hs
    simp only [getSubsystemStage, invalidateAll, List.getElem?_map] at hs ⊢
    rw [Option.map_eq_some'] at hs
    obtain ⟨p, hp, hps⟩ := hs
    have hps2 : p.currentStage = s := hps
    rw [hp]
    constructor
    · intro hgs
      simp only [Option.map_some']
      rw [if_pos (by omega)]
    · intro hsg
      simp only [Option.map_some']
      rw [if_neg (by omega)]
      simp [hps2]
  · simp only [invalidateAll, List.map_map]
    apply List.map_congr_left
    intro p _
    by_cases h : g ≤ p.currentStage <;> simp [h, storageOf]

/-- C1 witness: a concrete invalidation at stage `Velocity` of a
two-subsystem store whose trackers sit at `Dynamics` and `Topology`: the
subsystem at `Dynamics` is backed to exactly `Velocity − 1 = Position`,
the one at `Topology` is untouched, and the storage tables survive. -/
theorem invalidateAll_backs_up_exactly_witness :
    getSubsystemStage (invalidateAll stageVelocity witnessInvState) 0
        = some (stageVelocity - 1)
      ∧ getSubsystemStage (invalidateAll stageVelocity witnessInvState) 1
        = some stageTopology
      ∧ (invalidateAll stageVelocity witnessInvState).subsystems.map storageOf
        = witnessInvState.subsystems.map storageOf := by
  have h := invalidateAll_backs_up_exactly witnessInvState stageVelocity (by decide)
  exact ⟨(h.2.1 0 stageDynamics (by decide)).1 (by decide),
         (h.2.1 1 stageTopology (by decide)).2 (by decide), h.2.2⟩

/-- A successful `allocateQ` moves no stage tracker. -/
theorem allocateQ_stages {i : Nat} {q : List Int} {st st2 : SimState} {r : Nat}
    (h : allocateQ i q st = .ok (r, st2)) : stagesOf st2 = stagesOf st := by
  unfold allocateQ at h
  cases hp : st.subsystems[i]? with
  | none => rw [hp] at h; cases h
  | some p =>
      rw [hp] at h
      dsimp only at h
      by_cases hc : stageModel ≤ p.currentStage
      · rw [if_pos hc] at h; cases h
      · rw [if_neg hc] at h
        simp only [Except.ok.injEq, Prod.mk.injEq] at h
        obtain ⟨-, h2⟩ := h
        subst h2
        exact stagesOf_set st i p _ hp rfl

/-- A successful `allocateU` moves no stage tracker. -/
theorem allocateU_stages {i : Nat} {u : List Int} {st st2 : SimState} {r : Nat}
    (h : allocateU i u st = .ok (r, st2)) : stagesOf st2 = stagesOf st := by
  unfold allocateU at h
  cases hp : st.subsystems[i]? with
  | none => rw [hp] at h; cases h
  | some p =>
      rw [hp] at h
      dsimp only at h
      by_cases hc : stageModel ≤ p.currentStage
      · rw [if_pos hc] at h; cases h
      · rw [if_neg hc] at h
        simp only [Except.ok.injEq, Prod.mk.injEq] at h
        obtain ⟨-, h2⟩ := h
        subst h2
        exact stagesOf_set st i p _ hp rfl

/-- A successful `allocateZ` moves no stage tracker. -/
theorem allocateZ_stages {i : Nat} {z : List Int} {st st2 : SimState} {r : Nat}
    (h : allocateZ i z st = .ok (r, st2)) : stagesOf st2 = stagesOf st := by
  unfold allocateZ at h
  cases hp : st.subsystems[i]? with
  | none => rw [hp] at h; cases h
  | some p =>
      rw [hp] at h
      dsimp only at h
      by_cases hc : stageModel ≤ p.currentStage
      · rw [if_pos hc] at h; cases h
      · rw [if_neg hc] at h
        simp only [Except.ok.injEq, Prod.mk.injEq] at h
        obtain ⟨-, h2⟩ := h
        subst h2
        exact stagesOf_set st i p _ hp rfl

/-- A successful `allocateQErr` moves no stage tracker. -/
theorem allocateQErr_stages {i n : Nat} {st st2 : SimState} {r : Nat}
    (h : allocateQErr i n st = .ok (r, st2)) : stagesOf st2 = stagesOf st := by
  unfold allocateQErr at h
  cases hp : st.subsystems[i]? with
  | none => rw [hp] at h; cases h
  | some p =>
      rw [hp] at h
      dsimp only at h
      by_cases hc : stageModel ≤ p.currentStage
      · rw [if_pos hc] at h; cases h
      · rw [if_neg hc] at h
        simp only [Except.ok.injEq, Prod.mk.injEq] at h
        obtain ⟨-, h2⟩ := h
        subst h2
        exact stagesOf_set st i p _ hp rfl

/-- A successful `allocateUErr` moves no stage tracker. -/
theorem allocateUErr_stages {i n : Nat} {st st2 : SimState} {r : Nat}
    (h : allocateUErr i n st = .ok (r, st2)) : stagesOf st2 = stagesOf st := by
  unfold allocateUErr at h
  cases hp : st.subsystems[i]? with
  | none => rw [hp] at h; cases h
  | some p =>
      rw [hp] at h
      dsimp only at h
      by_cases hc : stageModel ≤ p.currentStage
      · rw [if_pos hc] at h; cases h
      · rw [if_neg hc] at h
        simp only [Except.ok.injEq, Prod.mk.injEq] at h
        obtain ⟨-, h2⟩ := h
        subst h2
        exact stagesOf_set st i p _ hp rfl

/-- A successful `allocateUDotErr` moves no stage tracker. -/
theorem allocateUDotErr_stages {i n : Nat} {st st2 : SimState} {r : Nat}
    (h : allocateUDotErr i n st = .ok (r, st2)) : stagesOf st2 = stagesOf st := by
  unfold allocateUDotErr at h
  cases hp : st.subsystems[i]? with
  | none => rw [hp] at h; cases h
  | some p =>
      rw [hp] at h
      dsimp only at h
      by_cases hc : stageModel ≤ p.currentStage
      · rw [if_pos hc] at h; cases h
      · rw [if_neg hc] at h
        simp only [Except.ok.injEq, Prod.mk.injEq] at h
        obtain ⟨-, h2⟩ := h
        subst h2
        exact stagesOf_set st i p _ hp rfl

/-- A successful `allocateDiscreteVariable` moves no stage tracker. -/
theorem allocateDiscreteVariable_stages {i g v : Nat} {st st2 : SimState} {r : Nat}
    (h : allocateDiscreteVariable i g v st = .ok (r, st2)) :
    stagesOf st2 = stagesOf st := by
  unfold allocateDiscreteVariable at h
  cases hp : st.subsystems[i]? with
  | none => rw [hp] at h; cases h
  | some p =>
      rw [hp] at h
      dsimp only at h
      by_cases hc : stageModel ≤ p.currentStage
      · rw [if_pos hc] at h; cases h
      · rw [if_neg hc] at h
        by_cases hc2 : p.currentStage = stageTopology ∧ g ≤ stageModel
        · rw [if_pos hc2] at h; cases h
        · rw [if_neg hc2] at h
          simp only [Except.ok.injEq, Prod.mk.injEq] at h
          obtain ⟨-, h2⟩ := h
          subst h2
          exact stagesOf_set st i p _ hp rfl

/-- A successful `allocateCacheEntry` moves no stage tracker. -/
theorem allocateCacheEntry_stages {i g v : Nat} {st st2 : SimState} {r : Nat}
    (h : allocateCacheEntry i g v st = .ok (r, st2)) :
    stagesOf st2 = stagesOf st := by
  unfold allocateCacheEntry at h
  cases hp : st.subsystems[i]? with
  | none => rw [hp] at h; cases h
  | some p =>
      rw [hp] at h
      dsimp only at h
      by_cases hc : stageModel ≤ p.currentStage
      · rw [if_pos hc] at h; cases h
      · rw [if_neg hc] at h
        by_cases hc2 : p.currentStage = stageTopology ∧ g < stageModel
        · rw [if_pos hc2] at h; cases h
        · rw [if_neg hc2] at h
          simp only [Except.ok.injEq, Prod.mk.injEq] at h
          obtain ⟨-, h2⟩ := h
          subst h2
          exact stagesOf_set st i p _ hp rfl

/-- A successful `updCacheEntry` moves no stage tracker. -/
theorem updCacheEntry_stages {i idx v : Nat} {st st2 : SimState}
    (h : updCacheEntry i idx v st = .ok st2) : stagesOf st2 = stagesOf st := by
  unfold updCacheEntry at h
  cases hp : st.subsystems[i]? with
  | none => rw [hp] at h; cases h
  | some p =>
      rw [hp] at h
      dsimp only at h
      cases hce : p.caches[idx]? with
      | none => rw [hce] at h; cases h
      | some ce =>
          rw [hce] at h
          dsimp only at h
          by_cases hc : ce.stage - 1 ≤ p.currentStage
          · rw [if_pos hc] at h
            simp only [Except.ok.injEq] at h
            subst h
            exact stagesOf_set st i p _ hp rfl
          · rw [if_neg hc] at h; cases h

/-- `setDiscreteValue` moves no stage tracker. -/
theorem setDiscreteValue_stages (i idx v : Nat) (st : SimState) :
    stagesOf (setDiscreteValue i idx v st) = stagesOf st := by
  unfold setDiscreteValue
  cases hp : st.subsystems[i]? with
  | none => rfl
  | some p =>
      dsimp only
      cases hce : p.discretes[idx]? with
      | none => rfl
      | some dv =>
          dsimp only
          exact stagesOf_set st i p _ hp rfl

/-- A successful `updDiscreteVariable` is an `invalidateAll` applied to
the store with just the payload replaced: backing up stage trackers
happens only through `invalidateAll`. -/
theorem updDiscreteVariable_ok {i idx v : Nat} {st st2 : SimState}
    (h : updDiscreteVariable i idx v st = .ok st2) :
    ∃ g, st2 = invalidateAll g (setDiscreteValue i idx v st) := by
  unfold updDiscreteVariable at h
  cases hp : st.subsystems[i]? with
  | none => rw [hp] at h; cases h
  | some p =>
      rw [hp] at h
      dsimp only at h
      cases hdv : p.discretes[idx]? with
      | none => rw [hdv] at h; cases h
      | some dv =>
          rw [hdv] at h
          dsimp only at h
          by_cases hc : dv.stage ≤ p.currentStage
          · rw [if_pos hc] at h
            simp only [Except.ok.injEq] at h
            exact ⟨dv.stage, h.symm⟩
          · rw [if_neg hc] at h; cases h

/-- `distributeY` moves no stage tracker. -/
theorem distributeY_stages :
    ∀ (l : List PerSubsystemInfo) (q u z : List Int),
      (distributeY l q u z).map (·.currentStage) = l.map (·.currentStage)
  | [], _, _, _ => rfl
  | p :: ps, q, u, z => by
      simp only [distributeY, List.map_cons]
      rw [distributeY_stages ps]
      rfl

/-- `setY` moves no stage tracker. -/
theorem setY_stages (newY : List Int) (st : SimState) :
    stagesOf (setY newY st) = stagesOf st := by
  simp only [setY, stagesOf]
  rw [distributeY_stages]

/-- A successful `updY` is an `invalidateAll(Position)` applied to the
store with the Y contents replaced: backing up stage trackers happens only
through `invalidateAll`. -/
theorem updY_ok {newY : List Int} {st st2 : SimState}
    (h : updY newY st = .ok st2) :
    st2 = invalidateAll stagePosition (setY newY st) := by
  unfold updY at h
  by_cases hc : stageModel ≤ st.systemStage
  · rw [if_pos hc] at h
    simp only [Except.ok.injEq] at h
    exact h.symm
  · rw [if_neg hc] at h; cases h

/-- A successful `advanceSubsystemToStage` raises exactly the addressed
subsystem's tracker by one step. -/
theorem advanceSubsystemToStage_ok {i g : Nat} {st st2 : SimState}
    (h : advanceSubsystemToStage i g st = .ok st2) :
    ∃ p, st.subsystems[i]? = some p ∧ g = p.currentStage + 1 ∧ g ≤ stageReport
      ∧ st2 = { st with subsystems := st.subsystems.set i { p with currentStage := g } } := by
  unfold advanceSubsystemToStage at h
  cases hp : st.subsystems[i]? with
  | none => rw [hp] at h; cases h
  | some p =>
      rw [hp] at h
      dsimp only at h
      by_cases hc : g = p.currentStage + 1 ∧ g ≤ stageReport
      · rw [if_pos hc] at h
        simp only [Except.ok.injEq] at h
        exact ⟨p, rfl, hc.1, hc.2, h.symm⟩
      · rw [if_neg hc] at h; cases h

/-- A successful `advanceSystemToStage` raises exactly the system tracker
by one step, to a stage every subsystem has already reached. -/
theorem advanceSystemToStage_ok {g : Nat} {st st2 : SimState}
    (h : advanceSystemToStage g st = .ok st2) :
    g = st.systemStage + 1 ∧ g ≤ stageReport
      ∧ (∀ p ∈ st.subsystems, g ≤ p.currentStage)
      ∧ st2 = { st with systemStage := g } := by
  unfold advanceSystemToStage at h
  by_cases hc : g = st.systemStage + 1 ∧ g ≤ stageReport
  · rw [if_pos hc] at h
    by_cases ha : st.subsystems.any (fun p => p.currentStage < g)
    · rw [if_pos ha] at h; cases h
    · rw [if_neg ha] at h
      simp only [Except.ok.injEq] at h
      refine ⟨hc.1, hc.2, ?_, h.symm⟩
      intro p hp
      simp only [List.any_eq_true, decide_eq_true_eq, not_exists, not_and,
        not_lt] at ha
      exact ha p hp
  · rw [if_neg hc] at h; cases h

/-- Registration appends one fresh `Empty`-stage tracker and moves no
existing tracker. -/
theorem addSubsystem_stages (n v : String) (st : SimState) :
    stagesOf (addSubsystem n v st).2
      = (st.systemStage, st.subsystems.map (·.currentStage) ++ [stageEmpty]) := by
  simp [addSubsystem, stagesOf, freshSubsystem]

/-- A store with the same stage trackers satisfies the stage invariant as
soon as the original does. -/
theorem stageInvariant_of_stagesOf_eq {st st2 : SimState}
    (h : stagesOf st2 = stagesOf st) (hinv : StageInvariant st) :
    StageInvariant st2 := by
  intro p hp
  have hsys : st2.systemStage = st.systemStage := congrArg Prod.fst h
  have hmap : st2.subsystems.map (·.currentStage)
      = st.subsystems.map (·.currentStage) := congrArg Prod.snd h
  have hmem : p.currentStage ∈ st.subsystems.map (·.currentStage) := by
    rw [← hmap]
    exact List.mem_map_of_mem _ hp
  obtain ⟨p3, hp3, he⟩ := List.mem_map.mp hmem
  rw [hsys, ← he]
  exact hinv p3 hp3

/-- `invalidateAll` preserves the stage invariant. -/
theorem invalidateAll_invariant (g : Nat) {st : SimState}
    (hinv : StageInvariant st) : StageInvariant (invalidateAll g st) := by
  intro p hp
  simp only [invalidateAll, List.mem_map] at hp
  obtain ⟨p0, hp0, he⟩ := hp
  have h0 := hinv p0 hp0
  have hcs : p.currentStage
      = if g ≤ p0.currentStage then g - 1 else p0.currentStage := by
    subst he
    by_cases hc : g ≤ p0.currentStage <;> simp [hc]
  show (if g ≤ st.systemStage then g - 1 else st.systemStage) ≤ p.currentStage
  rw [hcs]
  by_cases h1 : g ≤ st.systemStage <;> by_cases h2 : g ≤ p0.currentStage <;>
    simp [h1, h2] <;> omega

/-- Registration preserves the stage invariant provided the system tracker
is still at `Empty`. -/
theorem addSubsystem_invariant {st : SimState} (n v : String)
    (hsys : st.systemStage = stageEmpty) (hinv : StageInvariant st) :
    StageInvariant (addSubsystem n v st).2 := by
  intro p hp
  simp only [addSubsystem, List.mem_append, List.mem_singleton] at hp
  rcases hp with hp | hp
  · exact hinv p hp
  · subst hp
    show st.systemStage ≤ (freshSubsystem n v).currentStage
    rw [hsys]
    exact Nat.le_refl _

/-- Advancing one subsystem preserves the stage invariant. -/
theorem advanceSub_invariant {i g : Nat} {st st2 : SimState}
    (h : advanceSubsystemToStage i g st = .ok st2)
    (hinv : StageInvariant st) : StageInvariant st2 := by
  obtain ⟨p, hp, hg, hr, hst⟩ := advanceSubsystemToStage_ok h
  subst hst
  intro q hq
  rcases List.mem_or_eq_of_mem_set hq with hq | hq
  · exact hinv q hq
  · subst hq
    have hple := hinv p (List.getElem?_mem hp)
    show st.systemStage ≤ g
    omega

/-- Advancing the system preserves the stage invariant. -/
theorem advanceSys_invariant {g : Nat} {st st2 : SimState}
    (h : advanceSystemToStage g st = .ok st2)
    (hinv : StageInvariant st) : StageInvariant st2 := by
  obtain ⟨hg, hr, hall, hst⟩ := advanceSystemToStage_ok h
  subst hst
  intro q hq
  exact hall q hq

/-- C2 counterexample: the claim quantifies over every state reachable by
the specified operations, and registration carries no precondition — so
advancing the empty system to `Topology` (vacuously allowed, no subsystem
is below it) and then registering a subsystem yields a reachable store
whose fresh `Empty`-stage subsystem sits strictly below the system
tracker: the invariant "system stage ≤ min of subsystem stages" fails. -/
theorem stage_invariant_counterexample :
    Reachable lateRegistrationState ∧ ¬ StageInvariant lateRegistrationState := by
  constructor
  · have h1 : SpecStep initialState
        { subsystems := [], systemStage := stageTopology } :=
      Or.inl (OpStep.advanceSys stageTopology _ _ rfl)
    have h2 : SpecStep { subsystems := [], systemStage := stageTopology }
        lateRegistrationState :=
      Or.inr (Or.inr ⟨"late", "1.0", rfl⟩)
    exact Reachable.step (Reachable.step Reachable.init h1) h2
  · intro h
    have hmem : freshSubsystem "late" "1.0" ∈ lateRegistrationState.subsystems := by
      simp [lateRegistrationState, addSubsystem]
    have hle := h _ hmem
    simp [lateRegistrationState, addSubsystem, freshSubsystem, stageEmpty,
      stageTopology] at hle

/-- C2 (amended): at every state of the store reachable when each
registration happens while the system-wide stage is still `Empty`, the
system-wide stage is at most every subsystem's stage; the invariant is
preserved by every operation — allocation, advancement, invalidation,
reads and writes — and by registration under that proviso (unrestricted
registration after the system has advanced is exactly what the
counterexample exploits). -/
theorem stage_invariant_reachableG (st : SimState) (h : ReachableG st) :
    StageInvariant st := by
  induction h with
  | init =>
      intro p hp
      simp [initialState] at hp
  | step hr hstep ih =>
      rcases hstep with hop | ⟨g, rfl⟩ | ⟨hsys, n, v, rfl⟩
      · cases hop with
        | allocQ i q st st2 r h =>
            exact stageInvariant_of_stagesOf_eq (allocateQ_stages h) ih
        | allocU i u st st2 r h =>
            exact stageInvariant_of_stagesOf_eq (allocateU_stages h) ih
        | allocZ i z st st2 r h =>
            exact stageInvariant_of_stagesOf_eq (allocateZ_stages h) ih
        | allocQErr i n st st2 r h =>
            exact stageInvariant_of_stagesOf_eq (allocateQErr_stages h) ih
        | allocUErr i n st st2 r h =>
            exact stageInvariant_of_stagesOf_eq (allocateUErr_stages h) ih
        | allocUDotErr i n st st2 r h =>
            exact stageInvariant_of_stagesOf_eq (allocateUDotErr_stages h) ih
        | allocDV i g v st st2 r h =>
            exact stageInvariant_of_stagesOf_eq (allocateDiscreteVariable_stages h) ih
        | allocCE i g v st st2 r h =>
            exact stageInvariant_of_stagesOf_eq (allocateCacheEntry_stages h) ih
        | advanceSub i g st st2 h => exact advanceSub_invariant h ih
        | advanceSys g st st2 h => exact advanceSys_invariant h ih
        | updDV i idx v st st2 h =>
            obtain ⟨g, rfl⟩ := updDiscreteVariable_ok h
            exact invalidateAll_invariant g
              (stageInvariant_of_stagesOf_eq (setDiscreteValue_stages i idx v _) ih)
        | updCE i idx v st st2 h =>
            exact stageInvariant_of_stagesOf_eq (updCacheEntry_stages h) ih
        | updYVec newY st st2 h =>
            rw [updY_ok h]
            exact invalidateAll_invariant _
              (stageInvariant_of_stagesOf_eq (setY_stages newY _) ih)
      · exact invalidateAll_invariant g ih
      · exact addSubsystem_invariant n v hsys ih

/-- C2 witness: a concrete guarded trace — register at `Empty`, advance
the subsystem and then the system to `Topology` — stays invariant. -/
theorem stage_invariant_reachableG_witness :
    StageInvariant witnessFreshState :=
  stage_invariant_reachableG witnessFreshState
    (ReachableG.step ReachableG.init (Or.inr (Or.inr ⟨rfl, "wf", "1", rfl⟩)))

/-- C8: no operation other than `invalidateAll` ever moves a stage tracker
backward.  Registration adds one fresh tracker and moves none; every
allocation and `updCacheEntry` move no tracker; `advanceSubsystemToStage`
and `advanceSystemToStage` only raise trackers; and the two mutating
accessors that do back stages up — `updDiscreteVariable` and the mutable
global-vector access `updY` — do so only by being, literally, an
`invalidateAll` applied to a store with unchanged trackers. -/
theorem stage_trackers_monotone (st : SimState) :
    (∀ n v, (addSubsystem n v st).2.systemStage = st.systemStage
        ∧ (addSubsystem n v st).2.subsystems.map (·.currentStage)
            = st.subsystems.map (·.currentStage) ++ [stageEmpty])
    ∧ (∀ i q r st2, allocateQ i q st = .ok (r, st2) → stagesOf st2 = stagesOf st)
    ∧ (∀ i u r st2, allocateU i u st = .ok (r, st2) → stagesOf st2 = stagesOf st)
    ∧ (∀ i z r st2, allocateZ i z st = .ok (r, st2) → stagesOf st2 = stagesOf st)
    ∧ (∀ i n r st2, allocateQErr i n st = .ok (r, st2) → stagesOf st2 = stagesOf st)
    ∧ (∀ i n r st2, allocateUErr i n st = .ok (r, st2) → stagesOf st2 = stagesOf st)
    ∧ (∀ i n r st2, allocateUDotErr i n st = .ok (r, st2) → stagesOf st2 = stagesOf st)
    ∧ (∀ i g v r st2, allocateDiscreteVariable i g v st = .ok (r, st2) →
        stagesOf st2 = stagesOf st)
    ∧ (∀ i g v r st2, allocateCacheEntry i g v st = .ok (r, st2) →
        stagesOf st2 = stagesOf st)
    ∧ (∀ i idx v st2, updCacheEntry i idx v st = .ok st2 → stagesOf st2 = stagesOf st)
    ∧ (∀ i g st2, advanceSubsystemToStage i g st = .ok st2 →
        st2.systemStage = st.systemStage
        ∧ ∀ j s s2, getSubsystemStage st j = some s →
            getSubsystemStage st2 j = some s2 → s ≤ s2)
    ∧ (∀ g st2, advanceSystemToStage g st = .ok st2 →
        st.systemStage ≤ st2.systemStage
        ∧ st2.subsystems.map (·.currentStage) = st.subsystems.map (·.currentStage))
    ∧ (∀ i idx v st2, updDiscreteVariable i idx v st = .ok st2 →
        ∃ g st3, stagesOf st3 = stagesOf st ∧ st2 = invalidateAll g st3)
    ∧ (∀ newY st2, updY newY st = .ok st2 →
        ∃ st3, stagesOf st3 = stagesOf st ∧ st2 = invalidateAll stagePosition st3) := by
  refine ⟨?_, ?_, ?_, ?_, ?_, ?_, ?_, ?_, ?_, ?_, ?_, ?_, ?_, ?_⟩
  · intro n v
    have h := addSubsystem_stages n v st
    exact ⟨congrArg Prod.fst h, congrArg Prod.snd h⟩
  · intro i q r st2 h
    exact allocateQ_stages h
  · intro i u r st2 h
    exact allocateU_stages h
  · intro i z r st2 h
    exact allocateZ_stages h
  · intro i n r st2 h
    exact allocateQErr_stages h
  · intro i n r st2 h
    exact allocateUErr_stages h
  · intro i n r st2 h
    exact allocateUDotErr_stages h
  · intro i g v r st2 h
    exact allocateDiscreteVariable_stages h
  · intro i g v r st2 h
    exact allocateCacheEntry_stages h
  · intro i idx v st2 h
    exact updCacheEntry_stages h
  · intro i g st2 h
    obtain ⟨p, hp, hg, hr, hst⟩ := advanceSubsystemToStage_ok h
    subst hst
    refine ⟨rfl, ?_⟩
    intro j s s2 hs hs2
    simp only [getSubsystemStage] at hs hs2
    by_cases hij : j = i
    · subst hij
      rw [hp, Option.map_some'] at hs
      have hjlen : j < st.subsystems.length := (List.getElem?_eq_some.mp hp).1
      rw [List.getElem?_set_self (by simpa using hjlen), Option.map_some'] at hs2
      have hs' : p.currentStage = s := Option.some.inj hs
      have hs2' : g = s2 := Option.some.inj hs2
      omega
    · rw [show ((st.subsystems.set i { p with currentStage := g })[j]?)
            = st.subsystems[j]? from List.getElem?_set_ne (by omega), hs] at hs2
      exact Nat.le_of_eq (Option.some.inj hs2)
  · intro g st2 h
    obtain ⟨hg, hr, hall, hst⟩ := advanceSystemToStage_ok h
    subst hst
    refine ⟨?_, rfl⟩
    show st.systemStage ≤ g
    omega
  · intro i idx v st2 h
    obtain ⟨g, rfl⟩ := updDiscreteVariable_ok h
    exact ⟨g, _, setDiscreteValue_stages i idx v st, rfl⟩
  · intro newY st2 h
    rw [updY_ok h]
    exact ⟨_, setY_stages newY st, rfl⟩

/-- C8 witness: a concrete successful allocation in a fresh one-subsystem
store moves no stage tracker. -/
theorem stage_trackers_monotone_witness :
    stagesOf witnessAllocState = stagesOf witnessFreshState :=
  (stage_trackers_monotone witnessFreshState).2.1 0 [5] 0 witnessAllocState rfl

/-- C4: for every subsystem `s` (a valid slot) and every target stage,
`advanceSubsystemToStage(s, target)` succeeds exactly when the target is
one step above the subsystem's current stage and does not pass the
terminal stage `Report`; in every other case — advancing by more than one
step, standing still, moving down, or advancing past `Report` — the call
fails with `OutOfOrderAdvance` and, returning only the error, leaves the
tracker (the whole store) unchanged. -/
theorem advanceSubsystemToStage_single_step (st : SimState) (i g : Nat)
    (p : PerSubsystemInfo) (hp : st.subsystems[i]? = some p) :
    ((∃ st2, advanceSubsystemToStage i g st = .ok st2) ↔
        g = p.currentStage + 1 ∧ g ≤ stageReport)
    ∧ (¬(g = p.currentStage + 1 ∧ g ≤ stageReport) →
        advanceSubsystemToStage i g st = .error .OutOfOrderAdvance) := by
  unfold advanceSubsystemToStage
  rw [hp]
  dsimp only
  by_cases hc : g = p.currentStage + 1 ∧ g ≤ stageReport
  · rw [if_pos hc]
    exact ⟨⟨fun _ => hc, fun _ => ⟨_, rfl⟩⟩, fun hn => absurd hc hn⟩
  · rw [if_neg hc]
    exact ⟨⟨fun ⟨st2, h⟩ => Except.noConfusion h, fun h => absurd h hc⟩, fun _ => rfl⟩

/-- C4 witness: in the concrete store, subsystem 0 sits at `Dynamics`:
advancing it to `Acceleration` (one step) succeeds, while jumping it
straight to `Report` (two steps) fails with `OutOfOrderAdvance`. -/
theorem advanceSubsystemToStage_single_step_witness :
    (∃ st2, advanceSubsystemToStage 0 stageAcceleration witnessInvState = .ok st2)
    ∧ advanceSubsystemToStage 0 stageReport witnessInvState
        = .error .OutOfOrderAdvance := by
  constructor
  · exact (advanceSubsystemToStage_single_step witnessInvState 0 stageAcceleration
      _ rfl).1.mpr ⟨rfl, by decide⟩
  · exact (advanceSubsystemToStage_single_step witnessInvState 0 stageReport
      _ rfl).2 (by decide)

/-- C5: once a subsystem's stage has reached `Model`, every allocation
call against it — `allocateQ/U/Z`, `allocateQErr/UErr/UDotErr`,
`allocateDiscreteVariable` and `allocateCacheEntry` — fails with
`AllocationAfterLock`, whatever the allocation kind, the requested stage
tag or the initial data. -/
theorem allocation_after_lock (st : SimState) (i : Nat) (p : PerSubsystemInfo)
    (hp : st.subsystems[i]? = some p) (hlock : stageModel ≤ p.currentStage) :
    (∀ q, allocateQ i q st = .error .AllocationAfterLock)
    ∧ (∀ u, allocateU i u st = .error .AllocationAfterLock)
    ∧ (∀ z, allocateZ i z st = .error .AllocationAfterLock)
    ∧ (∀ n, allocateQErr i n st = .error .AllocationAfterLock)
    ∧ (∀ n, allocateUErr i n st = .error .AllocationAfterLock)
    ∧ (∀ n, allocateUDotErr i n st = .error .AllocationAfterLock)
    ∧ (∀ g v, allocateDiscreteVariable i g v st = .error .AllocationAfterLock)
    ∧ (∀ g v, allocateCacheEntry i g v st = .error .AllocationAfterLock) := by
  refine ⟨fun q => ?_, fun u => ?_, fun z => ?_, fun n => ?_, fun n => ?_,
    fun n => ?_, fun g v => ?_, fun g v => ?_⟩ <;>
    simp [allocateQ, allocateU, allocateZ, allocateQErr, allocateUErr,
      allocateUDotErr, allocateDiscreteVariable, allocateCacheEntry, hp, hlock]

/-- C5 witness: subsystem 0 of the concrete store is at `Dynamics`, past
`Model`, so a Q allocation and a cache-entry allocation both fail with
`AllocationAfterLock`. -/
theorem allocation_after_lock_witness :
    allocateQ 0 [7] witnessInvState = .error .AllocationAfterLock
    ∧ allocateCacheEntry 0 stageVelocity 5 witnessInvState
        = .error .AllocationAfterLock := by
  have h := allocation_after_lock witnessInvState 0 _ rfl (by decide)
  exact ⟨h.1 [7], h.2.2.2.2.2.2.2 stageVelocity 5⟩

/-- C6: for a valid cache-entry handle with owning stage `S`,
`getCacheEntry` succeeds (returning the stored value) exactly when the
holding subsystem's current stage is at or above `S`, and fails with
`StageNotRealized` whenever the current stage is below `S`; `updCacheEntry`
is permitted as soon as the current stage is at or above `S − 1`, and it
moves no stage tracker — filling a cache value invalidates nothing. -/
theorem cacheEntry_access_spec (st : SimState) (i idx : Nat)
    (p : PerSubsystemInfo) (ce : DiscreteVariable)
    (hp : st.subsystems[i]? = some p) (hce : p.caches[idx]? = some ce) :
    (getCacheEntry i idx st = .ok ce.value ↔ ce.stage ≤ p.currentStage)
    ∧ (p.currentStage < ce.stage →
        getCacheEntry i idx st = .error .StageNotRealized)
    ∧ (∀ v, ce.stage - 1 ≤ p.currentStage →
        ∃ st2, updCacheEntry i idx v st = .ok st2 ∧ stagesOf st2 = stagesOf st) := by
  refine ⟨?_, ?_, ?_⟩
  · unfold getCacheEntry
    rw [hp]
    dsimp only
    rw [hce]
    dsimp only
    by_cases hc : ce.stage ≤ p.currentStage
    · rw [if_pos hc]
      exact ⟨fun _ => hc, fun _ => rfl⟩
    · rw [if_neg hc]
      exact ⟨fun h => Except.noConfusion h, fun h => absurd h hc⟩
  · intro hlt
    unfold getCacheEntry
    rw [hp]
    dsimp only
    rw [hce]
    dsimp only
    rw [if_neg (by omega)]
  · intro v hv
    unfold updCacheEntry
    rw [hp]
    dsimp only
    rw [hce]
    dsimp only
    rw [if_pos hv]
    exact ⟨_, rfl, stagesOf_set st i p _ hp rfl⟩

/-- C6 witness: the concrete store's cache entry is owned at `Velocity`
while its subsystem is realized only through `Position`: reading it fails
with `StageNotRealized`, yet writing it (permitted from `Velocity − 1 =
Position` on) succeeds and moves no stage tracker. -/
theorem cacheEntry_access_spec_witness :
    getCacheEntry 0 0 witnessGVState = .error .StageNotRealized
    ∧ ∃ st2, updCacheEntry 0 0 99 witnessGVState = .ok st2
        ∧ stagesOf st2 = stagesOf witnessGVState := by
  have h := cacheEntry_access_spec witnessGVState 0 0 _ _ rfl rfl
  exact ⟨h.2.1 (by decide), h.2.2 99 (by decide)⟩

/-- The block of a flattened list of blocks that starts at the summed
length of the earlier blocks is exactly the original block. -/
theorem flatten_block {α : Type _} :
    ∀ (l : List (List α)) (i : Nat) (b : List α), l[i]? = some b →
      ((l.flatten).drop (((l.take i).map List.length).sum)).take b.length = b
  | [], i, b, h => by simp at h
  | x :: xs, 0, b, h => by
      have hb : x = b := by simpa using h
      subst hb
      simpa using List.take_left x xs.flatten
  | x :: xs, i + 1, b, h => by
      simp only [List.flatten_cons, List.take_succ_cons, List.map_cons,
        List.sum_cons, List.drop_append]
      exact flatten_block xs i b (by simpa using h)

/-- C3: after registering two subsystems, allocating a Q of length 3 in
subsystem 0 and a Q of length 2 in subsystem 1, and advancing both
subsystems and the system through `Topology` and `Model`, `getNQ()` is 5,
subsystem 0's block occupies global Q indices [0,3) and subsystem 1's
occupies [3,5); in general the assembly walks the subsystems in
registration order, so every subsystem's Q (resp. U, resp. Z) block is the
contiguous slice of the global array starting at its recorded offset, and
Y = [Q | U | Z] with `getNY()` = nq + nu + nz. -/
theorem globalAssembly_spec :
    (scenarioState.map fun st =>
        (getNQ st, getQStart st 0, getSubNQ st 0, getQStart st 1, getSubNQ st 1))
      = .ok (5, 0, 3, 3, 2)
    ∧ (∀ st : SimState, ∀ i p, st.subsystems[i]? = some p →
        ((globalQ st).drop (getQStart st i)).take (getSubNQ st i) = subsystemQ p
        ∧ ((globalU st).drop (getUStart st i)).take (getSubNU st i) = subsystemU p
        ∧ ((globalZ st).drop (getZStart st i)).take (getSubNZ st i) = subsystemZ p)
    ∧ (∀ st : SimState, getY st = globalQ st ++ globalU st ++ globalZ st
        ∧ getNY st = getNQ st + getNU st + getNZ st) := by
  refine ⟨rfl, ?_, fun st => ⟨rfl, ?_⟩⟩
  · intro st i p hp
    refine ⟨?_, ?_, ?_⟩
    · have hq : (st.subsystems.map subsystemQ)[i]? = some (subsystemQ p) := by
        rw [List.getElem?_map, hp, Option.map_some']
      have hb := flatten_block (st.subsystems.map subsystemQ) i (subsystemQ p) hq
      rw [← List.map_take] at hb
      unfold globalQ getQStart getSubNQ
      rw [hp]
      exact hb
    · have hu : (st.subsystems.map subsystemU)[i]? = some (subsystemU p) := by
        rw [List.getElem?_map, hp, Option.map_some']
      have hb := flatten_block (st.subsystems.map subsystemU) i (subsystemU p) hu
      rw [← List.map_take] at hb
      unfold globalU getUStart getSubNU
      rw [hp]
      exact hb
    · have hz : (st.subsystems.map subsystemZ)[i]? = some (subsystemZ p) := by
        rw [List.getElem?_map, hp, Option.map_some']
      have hb := flatten_block (st.subsystems.map subsystemZ) i (subsystemZ p) hz
      rw [← List.map_take] at hb
      unfold globalZ getZStart getSubNZ
      rw [hp]
      exact hb
  · unfold getNY getY getNQ getNU getNZ
    simp [List.length_append]
    omega

/-- C3 witness: in the concrete two-subsystem store, subsystem 1's single
q `[40]` is exactly the slice of the global Q array starting at its
recorded offset. -/
theorem globalAssembly_spec_witness :
    ((globalQ witnessAsmState).drop (getQStart witnessAsmState 1)).take
        (getSubNQ witnessAsmState 1) = [(40 : Int)] :=
  ((globalAssembly_spec.2.1 witnessAsmState 1 _ rfl).1).trans rfl

/-- C7: for a valid discrete-variable handle with owning stage `S`, held
by a subsystem whose current stage is at or above `S`, `updDiscreteVariable`
succeeds, its side effect is exactly `invalidateAll(S)` applied to the
store with the new value written, and as a result the holding subsystem's
stage tracker is backed to `S − 1`. -/
theorem updDiscreteVariable_spec (st : SimState) (i idx v : Nat)
    (p : PerSubsystemInfo) (dv : DiscreteVariable)
    (hp : st.subsystems[i]? = some p) (hdv : p.discretes[idx]? = some dv)
    (hstage : dv.stage ≤ p.currentStage) :
    updDiscreteVariable i idx v st
        = .ok (invalidateAll dv.stage (setDiscreteValue i idx v st))
    ∧ getSubsystemStage (invalidateAll dv.stage (setDiscreteValue i idx v st)) i
        = some (dv.stage - 1) := by
  constructor
  · unfold updDiscreteVariable
    rw [hp]
    dsimp only
    rw [hdv]
    dsimp only
    rw [if_pos hstage]
  · have hi : i < st.subsystems.length := by
      rcases List.getElem?_eq_some.mp hp with ⟨hlen, _⟩
      exact hlen
    unfold setDiscreteValue
    rw [hp]
    dsimp only
    rw [hdv]
    dsimp only
    simp only [getSubsystemStage, invalidateAll, List.getElem?_map]
    rw [List.getElem?_set_self (by simpa using hi)]
    simp only [Option.map_some']
    rw [if_pos (by simpa using hstage)]

/-- C7 witness: the concrete store's discrete variable is owned at
`Instance` and its subsystem is realized through `Position`: mutating it
succeeds via `invalidateAll(Instance)` and leaves the subsystem at
`Instance − 1 = Model`. -/
theorem updDiscreteVariable_spec_witness :
    updDiscreteVariable 0 0 4 witnessGVState
        = .ok (invalidateAll stageInstance (setDiscreteValue 0 0 4 witnessGVState))
    ∧ getSubsystemStage
        (invalidateAll stageInstance (setDiscreteValue 0 0 4 witnessGVState)) 0
        = some (stageInstance - 1) :=
  updDiscreteVariable_spec witnessGVState 0 0 4 _ _ rfl rfl (by decide)

end SimbodyState

namespace SimbodySubsystem

/-- C10: copying a `GutsRep` preserves the name, the version and every one
of the sixteen client-side function pointers of the source, and always
resets system membership: the copy belongs to no system, carries the
invalid subsystem id, has a null owner handle, and its topology cache is
marked not realized — whatever the source's membership state was. -/
theorem gutsRep_copy_spec (src : GutsRep) :
    ((GutsRep.copy src).subsystemName = src.subsystemName
      ∧ (GutsRep.copy src).subsystemVersion = src.subsystemVersion)
    ∧ ((GutsRep.copy src).destructp = src.destructp
      ∧ (GutsRep.copy src).clonep = src.clonep
      ∧ (GutsRep.copy src).realizeTopologyp = src.realizeTopologyp
      ∧ (GutsRep.copy src).realizeModelp = src.realizeModelp
      ∧ (GutsRep.copy src).realizeInstancep = src.realizeInstancep
      ∧ (GutsRep.copy src).realizeTimep = src.realizeTimep
      ∧ (GutsRep.copy src).realizePositionp = src.realizePositionp
      ∧ (GutsRep.copy src).realizeVelocityp = src.realizeVelocityp
      ∧ (GutsRep.copy src).realizeDynamicsp = src.realizeDynamicsp
      ∧ (GutsRep.copy src).realizeAccelerationp = src.realizeAccelerationp
      ∧ (GutsRep.copy src).realizeReportp = src.realizeReportp
      ∧ (GutsRep.copy src).calcQUnitWeightsp = src.calcQUnitWeightsp
      ∧ (GutsRep.copy src).calcUUnitWeightsp = src.calcUUnitWeightsp
      ∧ (GutsRep.copy src).calcZUnitWeightsp = src.calcZUnitWeightsp
      ∧ (GutsRep.copy src).calcQErrUnitTolerancesp = src.calcQErrUnitTolerancesp
      ∧ (GutsRep.copy src).calcUErrUnitTolerancesp = src.calcUErrUnitTolerancesp
      ∧ (GutsRep.copy src).calcDecorativeGeometryAndAppendp
          = src.calcDecorativeGeometryAndAppendp)
    ∧ ((GutsRep.copy src).isInSystem = false
      ∧ (GutsRep.copy src).mySystem = none
      ∧ (GutsRep.copy src).mySubsystemId = InvalidSubsystemId
      ∧ (GutsRep.copy src).myHandle = none
      ∧ (GutsRep.copy src).subsystemTopologyRealized = false) :=
  ⟨⟨rfl, rfl⟩,
   ⟨rfl, rfl, rfl, rfl, rfl, rfl, rfl, rfl, rfl, rfl, rfl, rfl, rfl, rfl,
    rfl, rfl, rfl⟩,
   ⟨rfl, rfl, rfl, rfl, rfl⟩⟩

end SimbodySubsystem
